import Mathlib

/-!
# Verification of the Skillio trust-and-safety core

Shallow embedding of the trust-and-safety middleware of
`complete_platform.py`: the sliding-window rate limiter (`RateLimiter`),
the CSRF token store (`CSRFProtection`), the content security validator
(`SecurityValidator`), the activity-submission moderation pipeline
(`handle_moderate_submission`), and the agency ownership-claim workflow
(`handle_agency_claim` / `serve_agency_management_page`).

Conventions of the embedding:
* clock instants (`time.time()`) are modelled as integers;
* a Python dict is modelled as a total function whose value at an absent
  key is the neutral element (`[]` for the rate-limiter buckets, `none`
  for token timestamps); the source only ever observes a missing key
  through lookups that treat it exactly that way;
* character classes of the source's regular expressions are modelled over
  ASCII (all inputs considered here are ASCII);
* fallible tuple indexing (Python `IndexError`) is modelled with `Except`.
-/

namespace Skillio

/-! ## RateLimiter (complete_platform.py lines 18-57) -/

/-- State of the global `RateLimiter` instance: `requests` maps a
rate-limit key to its ordered list of request timestamps (absent key is
the empty list), `lastCleanup` is `self.last_cleanup`.  The cleanup
interval is the constant 300 s, the retention horizon 3600 s. -/
structure RateLimiterState where
  requests : String → List Int
  lastCleanup : Int

/-- `RateLimiter.__init__`: empty bucket map, `last_cleanup` set to the
construction instant. -/
def RateLimiterState.mk0 (t0 : Int) : RateLimiterState :=
  ⟨fun _ => [], t0⟩

/-- `RateLimiter.cleanup_old_requests`: when more than 300 s have passed
since the last sweep, every bucket keeps only timestamps newer than
`now - 3600` (in the source a bucket left empty is deleted from the dict,
which under the absent-key-is-`[]` convention is the same state). -/
def cleanupOldRequests (s : RateLimiterState) (now : Int) : RateLimiterState :=
  if now - s.lastCleanup > 300 then
    ⟨fun ip => (s.requests ip).filter (fun ts => ts > now - 3600), now⟩
  else s

/-- Result of `RateLimiter.is_rate_limited`: the pair
`(is_limited, remaining)` returned by the source. -/
structure RLResult where
  limited : Bool
  remaining : Int
  deriving DecidableEq, Repr

/-- `RateLimiter.is_rate_limited(ip, max_requests, window_seconds)` at
instant `now`: run the opportunistic cleanup, keep the key's timestamps
strictly newer than `now - window_seconds`; if at least `max_requests`
survive, deny with `remaining = max_requests - len(recent)`; otherwise
admit, the bucket becomes `recent + [now]` and
`remaining = max_requests - len(recent) - 1`. -/
def isRateLimited (s : RateLimiterState) (ip : String) (maxRequests : Nat)
    (windowSeconds : Int) (now : Int) : RLResult × RateLimiterState :=
  let s1 := cleanupOldRequests s now
  let windowStart := now - windowSeconds
  let recent := (s1.requests ip).filter (fun ts => ts > windowStart)
  if recent.length ≥ maxRequests then
    (⟨true, (maxRequests : Int) - recent.length⟩, s1)
  else
    (⟨false, (maxRequests : Int) - recent.length - 1⟩,
      ⟨fun k => if k = ip then recent ++ [now] else s1.requests k, s1.lastCleanup⟩)

/-- One call of a trace against the shared limiter: key, the two
per-purpose parameters, and the call instant. -/
structure RLCall where
  ip : String
  maxRequests : Nat
  windowSeconds : Int
  now : Int
  deriving DecidableEq, Repr

/-- Run a trace of `is_rate_limited` calls, returning the per-call
results paired with their calls, and the final state. -/
def runTrace (s : RateLimiterState) : List RLCall → List (RLCall × RLResult) × RateLimiterState
  | [] => ([], s)
  | c :: cs =>
    let r := isRateLimited s c.ip c.maxRequests c.windowSeconds c.now
    let rest := runTrace r.2 cs
    ((c, r.1) :: rest.1, rest.2)

/-- The instants of the admitted (non-denied) calls of a trace log that
were issued for `key`. -/
def admittedTimes (log : List (RLCall × RLResult)) (key : String) : List Int :=
  log.filterMap (fun cr => if cr.1.ip = key ∧ cr.2.limited = false then some cr.1.now else none)

/-- Every call of the trace issued for `key` uses the fixed per-purpose
budget `(m, w)`. -/
def paramsFixed (tr : List RLCall) (key : String) (m : Nat) (w : Int) : Prop :=
  ∀ c ∈ tr, c.ip = key → c.maxRequests = m ∧ c.windowSeconds = w

instance (tr : List RLCall) (key : String) (m : Nat) (w : Int) :
    Decidable (paramsFixed tr key m w) := by
  unfold paramsFixed; infer_instance

/-- The number of timestamps of `ip`'s bucket that survive the drop of
the ones not strictly newer than `now - w`, measured after the
opportunistic cleanup (the `len(recent_requests)` of the source). -/
def survivingCount (s : RateLimiterState) (ip : String) (w now : Int) : Nat :=
  (((cleanupOldRequests s now).requests ip).filter (fun ts => ts > now - w)).length

/-- The limiter state after an admitted call on `ip`: the bucket becomes
the in-window survivors followed by `now`; other buckets and
`last_cleanup` come from the post-cleanup state. -/
def admitState (s : RateLimiterState) (ip : String) (w now : Int) : RateLimiterState :=
  ⟨fun k => if k = ip then
      ((cleanupOldRequests s now).requests ip).filter (fun ts => ts > now - w) ++ [now]
    else (cleanupOldRequests s now).requests k,
    (cleanupOldRequests s now).lastCleanup⟩

/-- The per-call contract of spec §4.1 for a call `c` arriving at limiter
state `s` under the budget `(m, w)`: timestamps at or before `now - w`
are dropped from consideration; if the surviving count reaches `m` the
call denies and reports `remaining = max 0 (m - surviving)`; otherwise it
admits, appends `now` to the key's sequence and reports
`remaining = m - surviving - 1`. -/
def perCallContract (s : RateLimiterState) (c : RLCall) (m : Nat) (w : Int) : Prop :=
  (survivingCount s c.ip w c.now ≥ m →
    (isRateLimited s c.ip c.maxRequests c.windowSeconds c.now).1 =
      ⟨true, max 0 ((m : Int) - survivingCount s c.ip w c.now)⟩) ∧
  (survivingCount s c.ip w c.now < m →
    (isRateLimited s c.ip c.maxRequests c.windowSeconds c.now).1 =
      ⟨false, (m : Int) - survivingCount s c.ip w c.now - 1⟩ ∧
    (isRateLimited s c.ip c.maxRequests c.windowSeconds c.now).2.requests c.ip =
      ((cleanupOldRequests s c.now).requests c.ip).filter (fun ts => ts > c.now - w)
        ++ [c.now])

/-! ## CSRFProtection (complete_platform.py lines 164-205) -/

/-- State of `CSRFProtection.tokens`, the class-level
`{user_id: {token: timestamp}}` map.  An absent user maps every token to
`none`, matching the source's membership checks. -/
structure CSRFState where
  tokens : String → String → Option Int

/-- `CSRFProtection.generate_token(user_id)` at instant `now`.  The token
string is the unpredictable `sha256(f"{user_id}{time.time()}{uuid4()}")`
digest; it enters the embedding as the argument `tok`.  Before inserting,
the user's tokens issued more than 3600 s ago are evicted. -/
def generateToken (s : CSRFState) (userId tok : String) (now : Int) : CSRFState :=
  ⟨fun u =>
    if u = userId then
      fun t =>
        if t = tok then some now
        else
          match s.tokens userId t with
          | some ts => if now - ts < 3600 then some ts else none
          | none => none
    else s.tokens u⟩

/-- `CSRFProtection.validate_token(user_id, token)` at instant `now`:
false when either argument is empty or the token is unknown; when known,
a token older than 3600 s is evicted and rejected, otherwise it is
consumed (deleted) and accepted. -/
def validateToken (s : CSRFState) (userId tok : String) (now : Int) :
    Bool × CSRFState :=
  if userId = "" ∨ tok = "" then (false, s)
  else
    match s.tokens userId tok with
    | none => (false, s)
    | some ts =>
      let deleted : CSRFState :=
        ⟨fun u =>
          if u = userId then (fun t => if t = tok then none else s.tokens u t)
          else s.tokens u⟩
      if now - ts > 3600 then (false, deleted) else (true, deleted)

/-! ## SecurityValidator (complete_platform.py lines 62-159)

The validator works on Python `str` values through `re`.  The embedding
implements each regular expression of the source as an executable scanner
over `List Char`, with `re.search` semantics (a match may start at any
position; `.` matches everything except a newline; `\s` and `\d` and the
explicit classes are taken over ASCII, which covers every input
considered here; `str.lower` is ASCII `Char.toLower`; the `$` of the
anchored email/EIK patterns is taken as end-of-string — the handlers
strip surrounding whitespace before matching, so Python's
trailing-newline allowance for `$` is unreachable there). -/

/-- The single-quote character (written via its code point to keep the
pattern strings readable). -/
def sq : Char := Char.ofNat 39

/-- The regex class `[\'\"]`. -/
def isQuote (c : Char) : Bool := c = sq || c = '"'

/-- The regex class `\s` over ASCII, which is also Python's
`str.strip()` default set. -/
def isPySpace (c : Char) : Bool :=
  c = ' ' || c = '\t' || c = '\n' || c = '\r' || c = Char.ofNat 11 || c = Char.ofNat 12

/-- The regex class `\w` over ASCII, used for `\b` boundaries. -/
def isWordChar (c : Char) : Bool := c.isAlpha || c.isDigit || c = '_'

/-- `pat` occurs as a contiguous substring. -/
def containsSub (pat : List Char) : List Char → Bool
  | [] => pat.isEmpty
  | c :: cs => pat.isPrefixOf (c :: cs) || containsSub pat cs

/-- `pat` occurs after a gap matched by `.*` (which cannot cross a
newline). -/
def searchNoNl (pat : List Char) : List Char → Bool
  | [] => pat.isEmpty
  | c :: cs => pat.isPrefixOf (c :: cs) || (c ≠ '\n' && searchNoNl pat cs)

/-- `kw` occurs at the head of `s` with `\b` on both sides, `prev` being
the character immediately before `s` (`none` at the start of the
string). -/
def wordAt (kw : List Char) (prev : Option Char) (s : List Char) : Bool :=
  (match prev with
   | none => true
   | some p => !isWordChar p) &&
  kw.isPrefixOf s &&
  (match s.drop kw.length with
   | [] => true
   | c :: _ => !isWordChar c)

/-- One of the words of `kws` occurs with `\b` boundaries after a
`.*` gap (no newline crossed). -/
def searchWordNoNl (kws : List (List Char)) (prev : Option Char) : List Char → Bool
  | [] => false
  | c :: cs =>
      kws.any (fun kw => wordAt kw prev (c :: cs)) ||
      (c ≠ '\n' && searchWordNoNl kws (some c) cs)

/-- First-keyword set of SQL pattern 1. -/
def sqlKw1 : List (List Char) :=
  ["union".toList, "select".toList, "insert".toList, "update".toList,
   "delete".toList, "drop".toList, "create".toList, "alter".toList]

/-- Second-keyword set of SQL pattern 1. -/
def sqlKw2 : List (List Char) :=
  ["from".toList, "into".toList, "table".toList, "database".toList]

/-- `\b(union|…)\b.*\b(from|…)\b` tried at one start position. -/
def sqlP1At (prev : Option Char) (s : List Char) : Bool :=
  sqlKw1.any (fun kw =>
    wordAt kw prev s && searchWordNoNl sqlKw2 (some (kw.getLastD 'a')) (s.drop kw.length))

/-- `re.search` scan for SQL pattern 1. -/
def scanP1 (prev : Option Char) : List Char → Bool
  | [] => false
  | c :: cs => sqlP1At prev (c :: cs) || scanP1 (some c) cs

/-- Drop the `\s*` gap. -/
def dropWs (s : List Char) : List Char := s.dropWhile isPySpace

/-- Consume `(or|and)`. -/
def dropOrAnd (s : List Char) : Option (List Char) :=
  if ['o', 'r'].isPrefixOf s then some (s.drop 2)
  else if ['a', 'n', 'd'].isPrefixOf s then some (s.drop 3)
  else none

/-- `[\'\"]\s*(or|and)\s*[\'\"]\s*=\s*[\'\"]\s*[\'\"]\s*` tried at one
start position. -/
def sqlP2At : List Char → Bool
  | [] => false
  | c :: rest =>
    isQuote c &&
    (match dropOrAnd (dropWs rest) with
     | none => false
     | some r2 =>
       match dropWs r2 with
       | q1 :: r4 =>
         isQuote q1 &&
         (match dropWs r4 with
          | '=' :: r6 =>
            (match dropWs r6 with
             | q2 :: r8 =>
               isQuote q2 &&
               (match dropWs r8 with
                | q3 :: _ => isQuote q3
                | [] => false)
             | [] => false)
          | _ => false)
       | [] => false)

/-- Consume `\d+`. -/
def dropDigits (s : List Char) : Option (List Char) :=
  match s with
  | c :: _ => if c.isDigit then some (s.dropWhile Char.isDigit) else none
  | [] => none

/-- `[\'\"]\s*(or|and)\s+\d+\s*=\s*\d+\s*[\'\"]\s*` tried at one start
position. -/
def sqlP3At : List Char → Bool
  | [] => false
  | c :: rest =>
    isQuote c &&
    (match dropOrAnd (dropWs rest) with
     | none => false
     | some r2 =>
       match r2 with
       | w :: r3 =>
         isPySpace w &&
         (match dropDigits (dropWs r3) with
          | none => false
          | some r4 =>
            match dropWs r4 with
            | '=' :: r5 =>
              (match dropDigits (dropWs r5) with
               | none => false
               | some r6 =>
                 match dropWs r6 with
                 | q :: _ => isQuote q
                 | [] => false)
            | _ => false)
       | [] => false)

/-- Destructive verbs of SQL pattern 4. -/
def sqlKw4 : List (List Char) :=
  ["drop".toList, "delete".toList, "truncate".toList, "insert".toList,
   "update".toList]

/-- `;\s*(drop|delete|truncate|insert|update)` tried at one start
position. -/
def sqlP4At : List Char → Bool
  | ';' :: rest => sqlKw4.any (fun kw => kw.isPrefixOf (dropWs rest))
  | _ => false

/-- `<script[^>]*>.*</script>` tried at one start position. -/
def sqlP6At (s : List Char) : Bool :=
  "<script".toList.isPrefixOf s &&
  (match (s.drop 7).dropWhile (fun c => c ≠ '>') with
   | '>' :: r2 => searchNoNl "</script>".toList r2
   | _ => false)

/-- `re.search` scan for a position-wise matcher. -/
def scanAny (f : List Char → Bool) : List Char → Bool
  | [] => f []
  | c :: cs => f (c :: cs) || scanAny f cs

/-- `SecurityValidator.check_sql_injection`: empty text is clean, else
the lowered text is matched against the six heuristic patterns. -/
def check_sql_injection (text : String) : Bool :=
  if text = "" then false
  else
    let l := text.toList.map Char.toLower
    scanP1 none l ||
    scanAny sqlP2At l ||
    scanAny sqlP3At l ||
    scanAny sqlP4At l ||
    containsSub "exec".toList l || containsSub "execute".toList l ||
    containsSub "sp_".toList l || containsSub "xp_".toList l ||
    scanAny sqlP6At l

/-- `http[s]?://.*\.tk/` (and the `.ml/` twin) tried at one start
position: literal scheme, `.*` gap (no newline), literal suffix. -/
def spamLinkAt (suffix : List Char) (s : List Char) : Bool :=
  ("https://".toList.isPrefixOf s && searchNoNl suffix (s.drop 8)) ||
  ("http://".toList.isPrefixOf s && searchNoNl suffix (s.drop 7))

/-- `(kw …).*(kw …)` tried at one start position: one first-set literal
followed, after a `.*` gap (no newline), by a second-set literal. -/
def spamPairAt (firsts seconds : List (List Char)) (s : List Char) : Bool :=
  firsts.any (fun kw => kw.isPrefixOf s &&
    seconds.any (fun k2 => searchNoNl k2 (s.drop kw.length)))

/-- `[a-zA-Z]{50,}`: a run of at least `n` ASCII letters starts
somewhere. -/
def hasAlphaRun (n : Nat) : List Char → Bool
  | [] => n = 0
  | c :: cs => (((c :: cs).takeWhile Char.isAlpha).length ≥ n) || hasAlphaRun n cs

/-- `(.)\1{10,}`: some non-newline character is followed by at least `k`
copies of itself. -/
def hasCharRepeat (k : Nat) : List Char → Bool
  | [] => false
  | c :: cs => (c ≠ '\n' && (cs.takeWhile (fun d => d = c)).length ≥ k) ||
      hasCharRepeat k cs

/-- `SecurityValidator.detect_spam_patterns`: empty text is clean, else
the lowered text is matched against the six spam indicators. -/
def detect_spam_patterns (text : String) : Bool :=
  if text = "" then false
  else
    let l := text.toList.map Char.toLower
    scanAny (spamLinkAt ".tk/".toList) l ||
    scanAny (spamLinkAt ".ml/".toList) l ||
    scanAny (spamPairAt ["buy".toList, "purchase".toList, "sale".toList]
      ["viagra".toList, "cialis".toList, "cheap".toList]) l ||
    scanAny (spamPairAt ["win".toList, "winner".toList, "won".toList]
      ["money".toList, "prize".toList, "lottery".toList]) l ||
    hasAlphaRun 50 l ||
    hasCharRepeat 10 l

/-- The regex class `[a-zA-Z0-9._%+-]` of the email local part. -/
def isLocalChar (c : Char) : Bool :=
  c.isAlpha || c.isDigit || c = '.' || c = '_' || c = '%' || c = '+' || c = '-'

/-- The regex class `[a-zA-Z0-9.-]` of the email domain. -/
def isDomChar (c : Char) : Bool := c.isAlpha || c.isDigit || c = '.' || c = '-'

/-- `[a-zA-Z0-9.-]+\.[a-zA-Z]{2,}$`: the only admissible split is at the
last dot, whose suffix must be two or more letters reaching the end. -/
def domainMatch (l : List Char) : Bool :=
  let tldRev := l.reverse.takeWhile (fun c => c ≠ '.')
  if tldRev.length = l.length then false
  else
    let tld := tldRev.reverse
    let dom := l.take (l.length - tld.length - 1)
    dom.length ≥ 1 && dom.all isDomChar && tld.length ≥ 2 && tld.all Char.isAlpha

/-- `SecurityValidator.validate_email`: nonempty, at most 254 characters,
and `re.match(r'^[a-zA-Z0-9._%+-]+@[a-zA-Z0-9.-]+\.[a-zA-Z]{2,}$', email)`. -/
def validate_email (email : String) : Bool :=
  if email = "" || email.length > 254 then false
  else
    let l := email.toList
    let locPart := l.takeWhile isLocalChar
    locPart.length ≥ 1 &&
    (match l.drop locPart.length with
     | '@' :: rest => domainMatch rest
     | _ => false)

/-- `SecurityValidator.validate_password`: nonempty and length within
`[6, 128]`.  The Bulgarian messages of the source are abstracted to ASCII
tags. -/
def validate_password (password : String) : Bool × String :=
  if password = "" then (false, "required")
  else if password.length < 6 then (false, "too-short")
  else if password.length > 128 then (false, "too-long")
  else (true, "")

/-- `SecurityValidator.validate_eik`: optional; when present,
`re.match(r'^[0-9]{9,13}$', eik)`. -/
def validate_eik (eik : String) : Bool :=
  if eik = "" then true
  else 9 ≤ eik.length && eik.length ≤ 13 && eik.toList.all Char.isDigit

/-- Keep a character during control-character stripping:
`ord(char) >= 32 or char in '\n\r\t'`. -/
def keepChar (c : Char) : Bool := c.toNat ≥ 32 || c = '\n' || c = '\r' || c = '\t'

/-- The characters after the first `'>'`, if any. -/
def splitAtGt : List Char → Option (List Char)
  | [] => none
  | c :: cs => if c = '>' then some cs else splitAtGt cs

/-- Fueled worker for `stripTags` (the fuel, instantiated with the list
length, only makes the structural recursion evident: a removed tag is
nonempty, so at most `length` steps happen). -/
def stripTagsFuel : Nat → List Char → List Char
  | _, [] => []
  | 0, l => l
  | Nat.succ n, c :: cs =>
    if c = '<' then
      match splitAtGt cs with
      | some rest => stripTagsFuel n rest
      | none => c :: stripTagsFuel n cs
    else c :: stripTagsFuel n cs

/-- `re.sub(r'<[^>]*>', '', text)`: at a `'<'`, the leftmost match runs
through the first following `'>'`; a `'<'` with no later `'>'` does not
match and is kept. -/
def stripTags (l : List Char) : List Char := stripTagsFuel l.length l

/-- Python `str.strip()`: drop the whitespace of both ends. -/
def pyStrip (l : List Char) : List Char :=
  ((l.dropWhile isPySpace).reverse.dropWhile isPySpace).reverse

/-- `SecurityValidator.sanitize_input(text, max_length)`: empty input
stays empty; injection-flagged input becomes the empty string; otherwise
control characters are stripped (keeping `\n\r\t`), HTML tags are
removed, and the result is truncated to `max_length` and stripped of
surrounding whitespace. -/
def sanitize_input (text : String) (maxLength : Nat) : String :=
  if text = "" then ""
  else if check_sql_injection text then ""
  else
    let l1 := text.toList.filter keepChar
    let l2 := stripTags l1
    String.mk (pyStrip (l2.take maxLength))

/-! ## Submission moderation (complete_platform.py lines 2795-3011)

`handle_activity_submission` creates `submitted_activities` with nine
columns — `id, submitted_by, activity_name, school_name, category, city,
description, status, created_at` (indices 0-8) — and
`handle_moderate_submission` reads the `SELECT *` row by position.  A row
is modelled as the raw tuple (`List String`), and Python's fallible tuple
indexing as `Except` (an `IndexError` aborts the handler before `commit`,
so the connection's uncommitted writes are discarded and the database is
left unchanged; the handler answers with the generic 500 error). -/

/-- A row of the `schools` table, restricted to the inserted columns. -/
structure SchoolRow where
  id : String
  name : String
  description : String
  city : String
  verified : Nat
  created_by : String
  deriving DecidableEq, Repr

/-- A row of the `activities` table, restricted to the inserted columns. -/
structure ActivityRow where
  id : String
  school_id : String
  title : String
  description : String
  category : String
  age_min : Nat
  age_max : Nat
  active : Nat
  verified : Nat
  created_by : String
  source : String
  deriving DecidableEq, Repr

/-- The tables touched by the moderation pipeline. -/
structure ModDB where
  submitted_activities : List (List String)
  schools : List SchoolRow
  activities : List ActivityRow
  deriving DecidableEq

/-- The responses `handle_moderate_submission` can send. -/
inductive ModResponse
  | missingParams   -- 400, required parameters absent
  | invalidAction   -- 400, action outside {approve, reject}
  | notFound        -- 404, no pending submission with that id
  | approved        -- 200 success
  | rejected        -- 200 success
  | serverError     -- 500, the generic exception handler
  deriving DecidableEq, Repr

/-- Python tuple indexing: out of range raises `IndexError`. -/
def pyIndex (r : List String) (i : Nat) : Except Unit String :=
  match r.get? i with
  | some v => Except.ok v
  | none => Except.error ()

/-- `SkillioHandler.handle_moderate_submission(submission_id, action)`
acting for the admin `reviewerId`; `newSchoolId` and `newActivityId`
stand for the generated `uuid4` values.  The approve branch builds the
school insert from `submission[3]`, `submission[9]`, `submission[5]` and
the activity insert from `submission[2]`, `submission[9]`,
`submission[4]`, in the source's evaluation order. -/
def handle_moderate_submission (db : ModDB)
    (submissionId action reviewerId newSchoolId newActivityId : String) :
    ModResponse × ModDB :=
  if submissionId = "" ∨ action = "" then (.missingParams, db)
  else if action ≠ "approve" ∧ action ≠ "reject" then (.invalidAction, db)
  else
    match db.submitted_activities.find?
        (fun r => r.getD 0 "" = submissionId ∧ r.getD 7 "" = "pending") with
    | none => (.notFound, db)
    | some row =>
      if action = "approve" then
        let attempt : Except Unit ModDB := do
          let s3 ← pyIndex row 3
          let s9 ← pyIndex row 9
          let s5 ← pyIndex row 5
          let schools' := db.schools ++ [⟨newSchoolId, s3, s9, s5, 1, reviewerId⟩]
          let s2 ← pyIndex row 2
          let s9b ← pyIndex row 9
          let s4 ← pyIndex row 4
          let activities' := db.activities ++
            [⟨newActivityId, newSchoolId, s2, s9b, s4, 3, 18, 1, 1, reviewerId, "parent"⟩]
          Except.ok { db with
            schools := schools'
            activities := activities'
            submitted_activities := db.submitted_activities.map
              (fun r => if r.getD 0 "" = submissionId then r.set 7 "approved" else r) }
        match attempt with
        | Except.ok db' => (.approved, db')
        | Except.error _ => (.serverError, db)
      else
        (.rejected, { db with
          submitted_activities := db.submitted_activities.map
            (fun r => if r.getD 0 "" = submissionId then r.set 7 "rejected" else r) })

/-- The database after one accepted activity submission, exactly as the
submit handler inserts it (nine columns, status defaulted to pending). -/
def c2DB : ModDB :=
  ⟨[["sub1", "parent1", "Kids Yoga", "Harmony Center", "Sports", "Sofia", "",
     "pending", "2026-01-01 00:00:00"]], [], []⟩

/-! ## Ownership claims (complete_platform.py lines 3163-3430) -/

/-- A row of the `user_agency_claims` table (the review columns are not
touched by the workflow). -/
structure ClaimRow where
  id : String
  user_id : String
  agency_id : String
  status : String
  deriving DecidableEq, Repr

/-- The tables touched by the ownership-claim workflow. -/
structure AgencyDB where
  schools : List SchoolRow
  claims : List ClaimRow
  deriving DecidableEq

/-- The responses `handle_agency_claim` can send. -/
inductive ClaimResponse
  | missingAgencyId          -- 400, no agency id in the payload
  | agencyNotFound           -- 404
  | conflict                 -- 400, pending claim already exists
  | created (claimId : String)  -- 200 success
  deriving DecidableEq, Repr

/-- `SkillioHandler.handle_agency_claim(agency_id)` for the school user
`userId`; `newClaimId` stands for the generated `uuid4`.  The duplicate
check looks only for a `pending` claim of the same `(user, agency)` pair;
when none exists a fresh pending claim is inserted. -/
def handle_agency_claim (db : AgencyDB) (userId agencyId newClaimId : String) :
    ClaimResponse × AgencyDB :=
  if agencyId = "" then (.missingAgencyId, db)
  else
    match db.schools.find? (fun s => s.id = agencyId) with
    | none => (.agencyNotFound, db)
    | some _ =>
      match db.claims.find? (fun c =>
          c.user_id = userId ∧ c.agency_id = agencyId ∧ c.status = "pending") with
      | some _ => (.conflict, db)
      | none => (.created newClaimId,
          { db with claims := db.claims ++ [⟨newClaimId, userId, agencyId, "pending"⟩] })

/-- Insertion step of the `ORDER BY name` sort. -/
def insertByName (s : SchoolRow) : List SchoolRow → List SchoolRow
  | [] => [s]
  | t :: ts => if s.name ≤ t.name then s :: t :: ts else t :: insertByName s ts

/-- `ORDER BY name` (insertion sort; any permutation sorted by name
models the SQL ordering). -/
def sortByName : List SchoolRow → List SchoolRow
  | [] => []
  | s :: ss => insertByName s (sortByName ss)

/-- The claimable-agencies query of
`SkillioHandler.serve_agency_management_page`:
`SELECT … FROM schools WHERE created_by != ? AND id NOT IN (SELECT
agency_id FROM user_agency_claims WHERE user_id = ?) ORDER BY name LIMIT
10` — the subquery does not restrict the claim status. -/
def availableAgencies (db : AgencyDB) (userId : String) : List SchoolRow :=
  (sortByName (db.schools.filter (fun s => s.created_by ≠ userId &&
      !(db.claims.any (fun c => c.user_id = userId && c.agency_id = s.id))))).take 10

/-! ## Registration anti-abuse path (complete_platform.py lines 3014-3106) -/

/-- Python `str.strip()` on a string value. -/
def pyStripStr (s : String) : String := String.mk (pyStrip s.toList)

/-- Python `str.lower()` on a string value (ASCII). -/
def pyLowerStr (s : String) : String := String.mk (s.toList.map Char.toLower)

/-- The `timestamp` form field as the handler sees it: absent, present
but unparsable (`ValueError`/`TypeError`), or parsed to an epoch
second. -/
inductive TsField
  | absent
  | unparsable
  | valid (t : Int)
  deriving DecidableEq, Repr

/-- The distinct request outcomes of `handle_registration`, up to (and
excluding) the database interaction of the accepted path. -/
inductive RegOutcome
  | botSuccess        -- honeypot tripped: HTTP 200, success body, after a delay
  | formExpired       -- 400 error body
  | unparsableForm    -- 400 error body
  | missingFields     -- 400 error body
  | badEmail          -- 400 error body
  | badPassword       -- 400 error body
  | badRole           -- 400 error body
  | badEik            -- 400 error body
  | spamRejected      -- 400 error body, after a delay
  | accepted (email role eik : String)  -- proceeds to persistence
  deriving DecidableEq, Repr

/-- `SkillioHandler.handle_registration` as a decision function of the
parsed payload at instant `now`: honeypot fields, form-age window,
sanitization and validation of email/password/role/EIK, and the spam
check on the email, in the source's order.  The `agency` role is stored
as `school`. -/
def handle_registration (website url phone : String) (tsField : TsField)
    (emailRaw password roleRaw eikRaw : String) (now : Int) : RegOutcome :=
  if website ≠ "" ∨ url ≠ "" ∨ phone ≠ "" then .botSuccess
  else
    let timingOk : Option RegOutcome :=
      match tsField with
      | .absent => none
      | .unparsable => some .unparsableForm
      | .valid t =>
        if now - t < 3 ∨ now - t > 3600 then some .formExpired else none
    match timingOk with
    | some r => r
    | none =>
      let email := sanitize_input (pyLowerStr (pyStripStr emailRaw)) 254
      let role := pyStripStr roleRaw
      let eik := sanitize_input (pyStripStr eikRaw) 13
      if email = "" ∨ password = "" ∨ role = "" then .missingFields
      else if ¬ validate_email email then .badEmail
      else if ¬ (validate_password password).1 then .badPassword
      else if role ≠ "parent" ∧ role ≠ "agency" then .badRole
      else
        let role := if role = "agency" then "school" else role
        if eik ≠ "" ∧ ¬ validate_eik eik then .badEik
        else if detect_spam_patterns email then .spamRejected
        else .accepted email role eik

/-- The wire shape of each outcome: HTTP status and whether the JSON
body is the success shape (`{'success': True, …}`) rather than an
`{'error': …}` body. -/
def regResponse : RegOutcome → Nat × Bool
  | .botSuccess => (200, true)
  | .formExpired => (400, false)
  | .unparsableForm => (400, false)
  | .missingFields => (400, false)
  | .badEmail => (400, false)
  | .badPassword => (400, false)
  | .badRole => (400, false)
  | .badEik => (400, false)
  | .spamRejected => (400, false)
  | .accepted _ _ _ => (200, true)

/-! ## Lemmas and claim theorems -/

lemma cleanup_requests_sublist (s : RateLimiterState) (now : Int) (key : String) :
    List.Sublist ((cleanupOldRequests s now).requests key) (s.requests key) := by
  unfold cleanupOldRequests
  split
  · exact List.filter_sublist _
  · exact List.Sublist.refl _

lemma isRateLimited_denied (s : RateLimiterState) (ip : String) (m : Nat) (w now : Int)
    (h : m ≤ survivingCount s ip w now) :
    isRateLimited s ip m w now =
      (⟨true, (m : Int) - survivingCount s ip w now⟩, cleanupOldRequests s now) := by
  unfold isRateLimited survivingCount at *
  simp only [ge_iff_le, if_pos h]

lemma admitState_requests_self (s : RateLimiterState) (ip : String) (w now : Int) :
    (admitState s ip w now).requests ip =
      ((cleanupOldRequests s now).requests ip).filter (fun ts => ts > now - w) ++ [now] := by
  simp [admitState]

lemma admitState_requests_of_ne (s : RateLimiterState) (ip k : String) (w now : Int)
    (h : k ≠ ip) :
    (admitState s ip w now).requests k = (cleanupOldRequests s now).requests k := by
  simp [admitState, h]

lemma isRateLimited_admitted (s : RateLimiterState) (ip : String) (m : Nat) (w now : Int)
    (h : survivingCount s ip w now < m) :
    isRateLimited s ip m w now =
      (⟨false, (m : Int) - survivingCount s ip w now - 1⟩, admitState s ip w now) := by
  unfold isRateLimited survivingCount admitState at *
  simp only [ge_iff_le, if_neg (Nat.not_le.mpr h)]

lemma runTrace_bucket_length_le (key : String) (m : Nat) (w : Int) :
    ∀ (tr : List RLCall) (s : RateLimiterState), paramsFixed tr key m w →
      (s.requests key).length ≤ m → (((runTrace s tr).2).requests key).length ≤ m
  | [], _, _, hs => hs
  | c :: cs, s, hfix, hs => by
    have hcs : paramsFixed cs key m w := fun d hd => hfix d (List.mem_cons_of_mem c hd)
    have hclean : (((cleanupOldRequests s c.now).requests key)).length ≤ m :=
      le_trans (List.Sublist.length_le (cleanup_requests_sublist s c.now key)) hs
    show (((runTrace (isRateLimited s c.ip c.maxRequests c.windowSeconds c.now).2 cs).2).requests key).length ≤ m
    rcases Nat.lt_or_ge (survivingCount s c.ip c.windowSeconds c.now) c.maxRequests with hlt | hge
    · rw [isRateLimited_admitted s c.ip c.maxRequests c.windowSeconds c.now hlt]
      apply runTrace_bucket_length_le key m w cs _ hcs
      by_cases hk : key = c.ip
      · obtain ⟨hm, -⟩ := hfix c (List.mem_cons_self c cs) hk.symm
        unfold survivingCount at hlt
        rw [hk, admitState_requests_self]
        simp only [List.length_append, List.length_cons, List.length_nil]
        omega
      · rw [admitState_requests_of_ne s c.ip key c.windowSeconds c.now hk]
        exact hclean
    · rw [isRateLimited_denied s c.ip c.maxRequests c.windowSeconds c.now hge]
      exact runTrace_bucket_length_le key m w cs _ hcs hclean

/-- C4: every call of a per-purpose trace (all calls on the key share one
`(max_requests, window_seconds)` budget, as every caller of the source
does) satisfies the per-call contract, including the `max 0` clamp of the
denied branch: the surviving count never exceeds `max_requests`, because
only admitted calls append and they do so below the budget. -/
theorem admit_per_call_contract (t0 : Int) (tr1 tr2 : List RLCall) (c : RLCall)
    (key : String) (m : Nat) (w : Int)
    (hfix : paramsFixed (tr1 ++ c :: tr2) key m w) (hip : c.ip = key) :
    perCallContract (runTrace (RateLimiterState.mk0 t0) tr1).2 c m w := by
  obtain ⟨hm, hw⟩ := hfix c (by simp) hip
  subst hm; subst hw; subst hip
  have hfix1 : paramsFixed tr1 c.ip c.maxRequests c.windowSeconds := by
    intro d hd hdip
    obtain ⟨h1, h2⟩ := hfix d (List.mem_append_left _ hd) hdip
    exact ⟨h1, h2⟩
  have hlen : (((runTrace (RateLimiterState.mk0 t0) tr1).2).requests c.ip).length
      ≤ c.maxRequests := by
    have := runTrace_bucket_length_le c.ip c.maxRequests c.windowSeconds tr1
      (RateLimiterState.mk0 t0) hfix1 (by simp [RateLimiterState.mk0])
    omega
  set s := (runTrace (RateLimiterState.mk0 t0) tr1).2 with hs
  have hsurv : survivingCount s c.ip c.windowSeconds c.now ≤ c.maxRequests := by
    have h1 : survivingCount s c.ip c.windowSeconds c.now
        ≤ ((cleanupOldRequests s c.now).requests c.ip).length :=
      List.Sublist.length_le (List.filter_sublist _)
    have h2 := List.Sublist.length_le (cleanup_requests_sublist s c.now c.ip)
    omega
  constructor
  · intro hge
    rw [isRateLimited_denied s c.ip c.maxRequests c.windowSeconds c.now hge]
    have : max 0 ((c.maxRequests : Int) - survivingCount s c.ip c.windowSeconds c.now)
        = (c.maxRequests : Int) - survivingCount s c.ip c.windowSeconds c.now := by
      apply max_eq_right; omega
    rw [this]
  · intro hlt
    rw [isRateLimited_admitted s c.ip c.maxRequests c.windowSeconds c.now hlt]
    exact ⟨rfl, admitState_requests_self s c.ip c.windowSeconds c.now⟩

/-- C10: a denied `is_rate_limited` call records nothing: the post-state
is exactly the post-cleanup state, and every bucket of the post-state is
a sublist of the corresponding pre-state bucket (the cleanup only removes
entries), so repeated denied calls never extend a denial. -/
theorem denied_call_appends_no_timestamp (s : RateLimiterState) (ip : String)
    (m : Nat) (w now : Int)
    (h : (isRateLimited s ip m w now).1.limited = true) :
    (isRateLimited s ip m w now).2 = cleanupOldRequests s now ∧
    ∀ key, List.Sublist ((isRateLimited s ip m w now).2.requests key)
      (s.requests key) := by
  rcases Nat.lt_or_ge (survivingCount s ip w now) m with hlt | hge
  · rw [isRateLimited_admitted s ip m w now hlt] at h
    simp at h
  · rw [isRateLimited_denied s ip m w now hge]
    exact ⟨rfl, fun key => cleanup_requests_sublist s now key⟩

/-- Witness for C10 at a concrete denied call: key `"k"` with two recent
timestamps, budget 2 per 300 s, call at instant 10. -/
theorem denied_call_appends_no_timestamp_witness :
    (isRateLimited ⟨fun k => if k = "k" then [5, 6] else [], 0⟩ "k" 2 300 10).2
        = cleanupOldRequests ⟨fun k => if k = "k" then [5, 6] else [], 0⟩ 10 ∧
    ∀ key, List.Sublist
      ((isRateLimited ⟨fun k => if k = "k" then [5, 6] else [], 0⟩ "k" 2 300 10).2.requests key)
      ((⟨fun k => if k = "k" then [5, 6] else [], 0⟩ : RateLimiterState).requests key) :=
  denied_call_appends_no_timestamp ⟨fun k => if k = "k" then [5, 6] else [], 0⟩
    "k" 2 300 10 (by decide)

/-- Witness for C4 at a concrete call: empty history, a call on key `"k"`
with budget 2 per 300 s at instant 7. -/
theorem admit_per_call_contract_witness :
    perCallContract (runTrace (RateLimiterState.mk0 0) []).2 ⟨"k", 2, 300, 7⟩ 2 300 :=
  admit_per_call_contract 0 [] [] ⟨"k", 2, 300, 7⟩ "k" 2 300 (by decide) rfl

lemma admittedTimes_cons (c : RLCall) (r : RLResult) (log : List (RLCall × RLResult))
    (key : String) :
    admittedTimes ((c, r) :: log) key =
      if c.ip = key ∧ r.limited = false then c.now :: admittedTimes log key
      else admittedTimes log key := by
  by_cases h : c.ip = key ∧ r.limited = false <;> simp [admittedTimes, h]

/-- Every admitted timestamp still inside the rolling window survives in
the key's bucket across a later cleanup, as long as the window does not
exceed the cleanup's 3600 s retention horizon. -/
lemma window_retention (s : RateLimiterState) (key : String) (A : List Int)
    (T now w : Int) (hT : T ≤ now) (hw : w ≤ 3600)
    (hsub : List.Sublist (A.filter (fun τ => τ > T - w)) (s.requests key)) :
    List.Sublist (A.filter (fun τ => τ > now - w))
      ((cleanupOldRequests s now).requests key) := by
  have h0 : List.Sublist (A.filter (fun τ => τ > now - w))
      (A.filter (fun τ => τ > T - w)) :=
    List.monotone_filter_right _ (fun τ hτ => by
      simp only [decide_eq_true_eq] at *; omega)
  unfold cleanupOldRequests
  split
  · show List.Sublist (A.filter (fun τ => τ > now - w))
      ((s.requests key).filter (fun ts => ts > now - 3600))
    have h2 : (A.filter (fun τ => τ > now - w)).filter (fun ts => ts > now - 3600)
        = A.filter (fun τ => τ > now - w) := by
      apply List.filter_eq_self.mpr
      intro a ha
      have := List.of_mem_filter ha
      simp only [decide_eq_true_eq] at *
      omega
    rw [← h2]
    exact List.Sublist.filter _ (h0.trans hsub)
  · exact h0.trans hsub

/-- Core inductive invariant behind C1: running any per-purpose trace
(`window_seconds ≤ 3600`) from a state whose `key` bucket retains all
still-in-window elements of a ghost list `A` of earlier admissions keeps
every rolling `w`-window count of `A` plus the new admissions at or below
`m`. -/
lemma runTrace_window_bound (key : String) (m : Nat) (w : Int)
    (hw0 : 0 < w) (hw : w ≤ 3600) :
    ∀ (tr : List RLCall) (s : RateLimiterState) (A : List Int) (T : Int),
      paramsFixed tr key m w →
      List.Chain' (· ≤ ·) (T :: tr.map RLCall.now) →
      List.Sublist (A.filter (fun τ => τ > T - w)) (s.requests key) →
      (∀ t : Int, A.countP (fun τ => t < τ ∧ τ ≤ t + w) ≤ m) →
      ∀ t : Int, (A ++ admittedTimes (runTrace s tr).1 key).countP
        (fun τ => t < τ ∧ τ ≤ t + w) ≤ m
  | [], s, A, T, _, _, _, hbound, t => by
    simpa [runTrace, admittedTimes] using hbound t
  | c :: cs, s, A, T, hfix, hchain, hsub, hbound, t => by
    obtain ⟨hTc, hchain'⟩ := List.chain'_cons.mp hchain
    have hcs : paramsFixed cs key m w := fun d hd => hfix d (List.mem_cons_of_mem c hd)
    have hret := window_retention s key A T c.now w hTc hw hsub
    simp only [runTrace]
    rcases Nat.lt_or_ge (survivingCount s c.ip c.windowSeconds c.now) c.maxRequests
      with hlt | hge
    · -- the call is admitted
      rw [isRateLimited_admitted s c.ip c.maxRequests c.windowSeconds c.now hlt,
        admittedTimes_cons]
      by_cases hk : c.ip = key
      · obtain ⟨hm, hwc⟩ := hfix c (List.mem_cons_self c cs) hk
        rw [if_pos ⟨hk, rfl⟩]
        -- lift the ghost list to A ++ [c.now] and recurse
        have hAfilter : List.Sublist (A.filter (fun τ => τ > c.now - w))
            (((cleanupOldRequests s c.now).requests c.ip).filter
              (fun ts => ts > c.now - w)) := by
          have hself : (A.filter (fun τ => τ > c.now - w)).filter (fun ts => ts > c.now - w)
              = A.filter (fun τ => τ > c.now - w) := by
            apply List.filter_eq_self.mpr
            intro a ha
            exact (List.mem_filter.mp ha).2
          rw [← hself]
          have hretk : List.Sublist (A.filter (fun τ => τ > c.now - w))
              ((cleanupOldRequests s c.now).requests c.ip) := hk ▸ hret
          exact List.Sublist.filter _ hretk
        have hsub' : List.Sublist ((A ++ [c.now]).filter (fun τ => τ > c.now - w))
            ((admitState s c.ip c.windowSeconds c.now).requests key) := by
          rw [← hk, admitState_requests_self, hwc, List.filter_append]
          apply List.Sublist.append hAfilter
          simp only [List.filter_cons, List.filter_nil, decide_eq_true_eq]
          rw [if_pos (by omega)]
        have hbound' : ∀ t' : Int, (A ++ [c.now]).countP
            (fun τ => t' < τ ∧ τ ≤ t' + w) ≤ m := by
          intro t'
          rw [List.countP_append]
          by_cases hin : t' < c.now ∧ c.now ≤ t' + w
          · have hcount : A.countP (fun τ => t' < τ ∧ τ ≤ t' + w)
                ≤ (A.filter (fun τ => τ > c.now - w)).length := by
              have hmono : List.Sublist (A.filter (fun τ => t' < τ ∧ τ ≤ t' + w))
                  (A.filter (fun τ => τ > c.now - w)) :=
                List.monotone_filter_right _ (fun τ hτ => by
                  simp only [decide_eq_true_eq] at *; omega)
              simpa [List.countP_eq_length_filter] using List.Sublist.length_le hmono
            have hlen : (A.filter (fun τ => τ > c.now - w)).length
                < c.maxRequests := by
              have h1 := List.Sublist.length_le hAfilter
              unfold survivingCount at hlt
              rw [hwc] at hlt
              omega
            have h2 : A.countP (fun τ => t' < τ ∧ τ ≤ t' + w) < m := by omega
            simp only [List.countP_cons, List.countP_nil, decide_eq_true_eq]
            rw [if_pos hin]
            omega
          · have h3 : [c.now].countP (fun τ => t' < τ ∧ τ ≤ t' + w) = 0 := by
              simp only [List.countP_cons, List.countP_nil, decide_eq_true_eq]
              rw [if_neg hin]
            rw [h3]
            simpa using hbound t'
        have hrec := runTrace_window_bound key m w hw0 hw cs
          (admitState s c.ip c.windowSeconds c.now) (A ++ [c.now]) c.now
          hcs hchain' hsub' hbound' t
        rw [List.append_cons]
        exact hrec
      · rw [if_neg (fun hand => hk hand.1)]
        apply runTrace_window_bound key m w hw0 hw cs _ A c.now hcs hchain' _ hbound t
        rw [admitState_requests_of_ne s c.ip key c.windowSeconds c.now
          (fun h => hk h.symm)]
        exact hret
    · -- the call is denied: nothing is recorded
      rw [isRateLimited_denied s c.ip c.maxRequests c.windowSeconds c.now hge,
        admittedTimes_cons]
      rw [if_neg (fun hand => Bool.true_eq_false.mp hand.2)]
      exact runTrace_window_bound key m w hw0 hw cs _ A c.now hcs hchain' hret hbound t

/-- C1 (amended): for every key and every nondecreasing per-purpose trace
whose window does not exceed the cleanup retention horizon of 3600 s, the
limiter never admits more than `max_requests` calls whose instants fall
within any rolling `window_seconds` interval, including across the
periodic global cleanup sweep.  (For `window_seconds > 3600` the sweep
can drop still-in-window timestamps and the bound fails, see the
counterexample.) -/
theorem admit_sliding_window (t0 : Int) (tr : List RLCall) (key : String)
    (m : Nat) (w : Int) (hw0 : 0 < w) (hw : w ≤ 3600)
    (hfix : paramsFixed tr key m w)
    (hchain : List.Chain' (· ≤ ·) (t0 :: tr.map RLCall.now)) (t : Int) :
    (admittedTimes (runTrace (RateLimiterState.mk0 t0) tr).1 key).countP
      (fun τ => t < τ ∧ τ ≤ t + w) ≤ m := by
  have h := runTrace_window_bound key m w hw0 hw tr (RateLimiterState.mk0 t0) [] t0
    hfix hchain (by simp [RateLimiterState.mk0]) (by simp) t
  simpa using h

/-- Witness for C1 at a concrete trace: three calls on key `"k"` with
budget 2 per 60 s at instants 5, 10, 20. -/
theorem admit_sliding_window_witness :
    (admittedTimes (runTrace (RateLimiterState.mk0 0)
        [⟨"k", 2, 60, 5⟩, ⟨"k", 2, 60, 10⟩, ⟨"k", 2, 60, 20⟩]).1 "k").countP
      (fun τ => 0 < τ ∧ τ ≤ 0 + 60) ≤ 2 :=
  admit_sliding_window 0 [⟨"k", 2, 60, 5⟩, ⟨"k", 2, 60, 10⟩, ⟨"k", 2, 60, 20⟩]
    "k" 2 60 (by decide) (by decide) (by decide)
    (by norm_num [List.chain'_cons, List.chain'_singleton]) 0

/-- Counterexample to C1 as stated: with `window_seconds = 7200` (larger
than the cleanup retention horizon) and `max_requests = 1`, two calls on
key `"k"` at instants 0 and 4000 are both admitted — the sweep at the
second call drops the still-in-window timestamp 0 — so a rolling 7200 s
interval holds 2 admissions, violating the claimed bound of 1. -/
theorem admit_sliding_window_counterexample :
    ¬ ((admittedTimes (runTrace (RateLimiterState.mk0 0)
        [⟨"k", 1, 7200, 0⟩, ⟨"k", 1, 7200, 4000⟩]).1 "k").countP
      (fun τ => -1 < τ ∧ τ ≤ -1 + 7200) ≤ 1) := by decide

lemma validateToken_accepts (s : CSRFState) (userId tok : String) (now ts : Int)
    (hu : userId ≠ "") (ht : tok ≠ "") (hts : s.tokens userId tok = some ts)
    (httl : now - ts ≤ 3600) :
    (validateToken s userId tok now).1 = true := by
  unfold validateToken
  rw [if_neg (by simp [hu, ht]), hts]
  simp only []
  rw [if_neg (by omega)]

lemma validateToken_deletes (s : CSRFState) (userId tok : String) (now ts : Int)
    (hu : userId ≠ "") (ht : tok ≠ "") (hts : s.tokens userId tok = some ts) :
    (validateToken s userId tok now).2.tokens userId tok = none := by
  unfold validateToken
  rw [if_neg (by simp [hu, ht]), hts]
  simp only []
  split <;> simp

lemma validateToken_rejects_unknown (s : CSRFState) (userId tok : String) (now : Int)
    (h : s.tokens userId tok = none) :
    (validateToken s userId tok now).1 = false := by
  unfold validateToken
  split
  · rfl
  · rw [h]

/-- C3: issuing a token and validating it before the TTL elapses
succeeds and consumes it, so a second validation of the same value fails,
whatever state the store was in and whenever the second call happens. -/
theorem csrf_token_single_use (s : CSRFState) (userId tok : String)
    (t0 t1 t2 : Int) (hu : userId ≠ "") (ht : tok ≠ "") (httl : t1 - t0 ≤ 3600) :
    ((validateToken (generateToken s userId tok t0) userId tok t1).1 = true) ∧
    ((validateToken
        (validateToken (generateToken s userId tok t0) userId tok t1).2
        userId tok t2).1 = false) := by
  have hlookup : (generateToken s userId tok t0).tokens userId tok = some t0 := by
    simp [generateToken]
  refine ⟨validateToken_accepts _ userId tok t1 t0 hu ht hlookup httl, ?_⟩
  exact validateToken_rejects_unknown _ userId tok t2
    (validateToken_deletes _ userId tok t1 t0 hu ht hlookup)

/-- Witness for C3: user `"u1"`, token `"tok"`, issued at 0, first
validated at 100, revalidated at 100. -/
theorem csrf_token_single_use_witness :
    ((validateToken (generateToken ⟨fun _ _ => none⟩ "u1" "tok" 0) "u1" "tok" 100).1
        = true) ∧
    ((validateToken
        (validateToken (generateToken ⟨fun _ _ => none⟩ "u1" "tok" 0) "u1" "tok" 100).2
        "u1" "tok" 100).1 = false) :=
  csrf_token_single_use ⟨fun _ _ => none⟩ "u1" "tok" 0 100 100
    (by decide) (by decide) (by decide)

lemma splitAtGt_length : ∀ (l r : List Char), splitAtGt l = some r → r.length < l.length
  | [], _, h => by simp [splitAtGt] at h
  | c :: cs, r, h => by
    unfold splitAtGt at h
    by_cases hc : c = '>'
    · rw [if_pos hc] at h
      cases h
      simp
    · rw [if_neg hc] at h
      have := splitAtGt_length cs r h
      simp only [List.length_cons]
      omega

/-- C5: the injection heuristic classifies the benign sentence as clean —
but it also returns `false` on the classic boolean-injection payload
`' OR '1'='1`: quote-pattern 2 requires a `=` directly after the second
quote and pattern 3 requires unquoted digits, so the quoted-digit variant
falls between them, contradicting the spec's testable property. -/
theorem injection_heuristic_on_spec_examples :
    check_sql_injection (String.mk [sq, ' ', 'O', 'R', ' ', sq, '1', sq, '=', sq, '1'])
        = false ∧
    check_sql_injection "My kid loves robotics" = false := by decide

lemma stripTagsFuel_eq_self : ∀ (n : Nat) (l : List Char), ('<') ∉ l →
    stripTagsFuel n l = l
  | _, [], _ => by cases ‹Nat›  <;> rfl
  | 0, _ :: _, _ => rfl
  | Nat.succ n, c :: cs, h => by
    have hc : c ≠ '<' := fun hc => h (hc ▸ List.mem_cons_self c cs)
    have hcs : ('<') ∉ cs := fun hm => h (List.mem_cons_of_mem c hm)
    unfold stripTagsFuel
    rw [if_neg hc, stripTagsFuel_eq_self n cs hcs]

lemma stripTags_eq_self (l : List Char) (h : ('<') ∉ l) : stripTags l = l :=
  stripTagsFuel_eq_self l.length l h

/-- C6 (amended): `sanitize` is the identity — hence idempotent — on
input that is already in sanitized form: not injection-flagged, no
control characters below 32 other than `\n\r\t`, no `'<'`, within
`max_len`, and no surrounding whitespace.  (Unrestricted non-malicious
input is not enough: tag-stripping, control-character removal or
truncation can create a fresh injection pattern in the output, see the
counterexample.) -/
theorem sanitize_idempotent_on_clean (x : String) (maxLen : Nat)
    (hinj : check_sql_injection x = false)
    (hctrl : ∀ c ∈ x.toList, keepChar c = true)
    (htag : ('<') ∉ x.toList)
    (hlen : x.length ≤ maxLen)
    (htrim : pyStrip x.toList = x.toList) :
    sanitize_input x maxLen = x ∧
    sanitize_input (sanitize_input x maxLen) maxLen = sanitize_input x maxLen := by
  have hfix : sanitize_input x maxLen = x := by
    by_cases hx : x = ""
    · subst hx; rfl
    · unfold sanitize_input
      rw [if_neg hx, if_neg (by simp [hinj])]
      have h1 : x.toList.filter keepChar = x.toList := List.filter_eq_self.mpr hctrl
      show String.mk (pyStrip ((stripTags (x.toList.filter keepChar)).take maxLen)) = x
      rw [h1, stripTags_eq_self _ htag]
      have h3 : x.toList.take maxLen = x.toList :=
        List.take_of_length_le (by
          have hx' : x.toList.length = x.length := rfl
          omega)
      rw [h3, htrim]
      rfl
  exact ⟨hfix, by rw [hfix]; exact hfix⟩

/-- Witness for C6 at the concrete clean input `"hello"`. -/
theorem sanitize_idempotent_on_clean_witness :
    sanitize_input "hello" 1000 = "hello" ∧
    sanitize_input (sanitize_input "hello" 1000) 1000 = sanitize_input "hello" 1000 :=
  sanitize_idempotent_on_clean "hello" 1000 (by decide) (by decide) (by decide)
    (by decide) (by decide)

/-- Counterexample to C6 as stated: `"sp<b>_"` is non-malicious (the
injection heuristic passes it), yet `sanitize` maps it to `"sp_"`, whose
re-sanitization trips the `sp_` stored-procedure pattern and yields the
empty string — so `sanitize` is not idempotent on it. -/
theorem sanitize_idempotent_counterexample :
    check_sql_injection "sp<b>_" = false ∧
    sanitize_input (sanitize_input "sp<b>_" 1000) 1000 ≠ sanitize_input "sp<b>_" 1000 := by
  decide

/-- C2: approving the pending submission does not create one venue and
one offering — the approve branch reads `submission[9]` from the
nine-column row (indices 0-8), the `IndexError` lands in the generic
exception handler and nothing is persisted: no school, no activity, and
the submission stays pending. -/
theorem approve_hits_index_error :
    handle_moderate_submission c2DB "sub1" "approve" "admin1" "s-new" "a-new"
      = (ModResponse.serverError, c2DB) := by decide

/-- C7: while a pending claim of `(userId, agencyId)` exists, a further
claim call of the same principal for the same (existing) target answers
Conflict and leaves the database unchanged — so at most one pending
claim ever exists per pair. -/
theorem claim_conflict_while_pending (db : AgencyDB) (userId agencyId newClaimId : String)
    (hne : agencyId ≠ "")
    (hagency : ∃ s ∈ db.schools, s.id = agencyId)
    (hpending : ∃ c ∈ db.claims,
      c.user_id = userId ∧ c.agency_id = agencyId ∧ c.status = "pending") :
    handle_agency_claim db userId agencyId newClaimId = (ClaimResponse.conflict, db) := by
  unfold handle_agency_claim
  rw [if_neg hne]
  cases hfs : db.schools.find? (fun s => s.id = agencyId) with
  | none =>
    exfalso
    obtain ⟨s, hs, hsid⟩ := hagency
    have := List.find?_eq_none.mp hfs s hs
    simp [hsid] at this
  | some s =>
    cases hfc : db.claims.find? (fun c =>
        c.user_id = userId ∧ c.agency_id = agencyId ∧ c.status = "pending") with
    | none =>
      exfalso
      obtain ⟨c, hc, h1, h2, h3⟩ := hpending
      have := List.find?_eq_none.mp hfc c hc
      simp [h1, h2, h3] at this
    | some c => rfl

/-- Witness for C7: one agency owned by `"bob"` and one pending claim by
`"u1"` on it; a further claim by `"u1"` conflicts. -/
theorem claim_conflict_while_pending_witness :
    handle_agency_claim
      ⟨[⟨"a1", "Alpha", "", "Sofia", 0, "bob"⟩], [⟨"c1", "u1", "a1", "pending"⟩]⟩
      "u1" "a1" "c2"
      = (ClaimResponse.conflict,
         ⟨[⟨"a1", "Alpha", "", "Sofia", 0, "bob"⟩], [⟨"c1", "u1", "a1", "pending"⟩]⟩) :=
  claim_conflict_while_pending
    ⟨[⟨"a1", "Alpha", "", "Sofia", 0, "bob"⟩], [⟨"c1", "u1", "a1", "pending"⟩]⟩
    "u1" "a1" "c2" (by decide) (by decide) (by decide)

lemma insertByName_perm (s : SchoolRow) :
    ∀ l : List SchoolRow, List.Perm (insertByName s l) (s :: l)
  | [] => List.Perm.refl _
  | t :: ts => by
    unfold insertByName
    split
    · exact List.Perm.refl _
    · exact ((insertByName_perm s ts).cons t).trans (List.Perm.swap s t ts)

lemma sortByName_perm : ∀ l : List SchoolRow, List.Perm (sortByName l) l
  | [] => List.Perm.refl _
  | s :: ss =>
    (insertByName_perm s (sortByName ss)).trans ((sortByName_perm ss).cons s)

/-- C8 (amended): when at most ten entities qualify, the claimable list
holds exactly the entities not owned by the principal that carry **no
claim of any status** by the principal (the source's `NOT IN` subquery
does not filter on `status = 'pending'`, and the query caps the result
at the first ten by name). -/
theorem availableAgencies_membership (db : AgencyDB) (userId : String) (s : SchoolRow)
    (hsmall : (db.schools.filter (fun s => s.created_by ≠ userId &&
      !(db.claims.any (fun c => c.user_id = userId && c.agency_id = s.id)))).length ≤ 10) :
    s ∈ availableAgencies db userId ↔
      s ∈ db.schools ∧ s.created_by ≠ userId ∧
        ¬ ∃ c ∈ db.claims, c.user_id = userId ∧ c.agency_id = s.id := by
  unfold availableAgencies
  rw [List.take_of_length_le (by rw [(sortByName_perm _).length_eq]; exact hsmall)]
  rw [List.Perm.mem_iff (sortByName_perm _)]
  simp [List.mem_filter, List.any_eq_true, not_or]

/-- Witness for C8 at a concrete state: a single foreign agency with no
claims is listed, and the characterization holds. -/
theorem availableAgencies_membership_witness :
    (⟨"a1", "Alpha", "", "Sofia", 0, "bob"⟩ : SchoolRow) ∈
        availableAgencies ⟨[⟨"a1", "Alpha", "", "Sofia", 0, "bob"⟩], []⟩ "u1" ↔
      (⟨"a1", "Alpha", "", "Sofia", 0, "bob"⟩ : SchoolRow) ∈
          (⟨[⟨"a1", "Alpha", "", "Sofia", 0, "bob"⟩], []⟩ : AgencyDB).schools ∧
        ("bob" : String) ≠ "u1" ∧
        ¬ ∃ c ∈ (⟨[⟨"a1", "Alpha", "", "Sofia", 0, "bob"⟩], []⟩ : AgencyDB).claims,
          c.user_id = "u1" ∧ c.agency_id = "a1" :=
  availableAgencies_membership ⟨[⟨"a1", "Alpha", "", "Sofia", 0, "bob"⟩], []⟩
    "u1" ⟨"a1", "Alpha", "", "Sofia", 0, "bob"⟩ (by decide)

/-- Counterexample to C8 as stated: `"a1"` is not owned by `"u1"` and
`"u1"`'s only claim on it is already resolved (`rejected`), so the claim
requires it to be listed — but the query excludes it because the
subquery ignores the claim status. -/
theorem availableAgencies_counterexample :
    (⟨"a1", "Alpha", "", "Sofia", 0, "bob"⟩ : SchoolRow) ∉
        availableAgencies
          ⟨[⟨"a1", "Alpha", "", "Sofia", 0, "bob"⟩], [⟨"c1", "u1", "a1", "rejected"⟩]⟩
          "u1" ∧
    ("bob" : String) ≠ "u1" ∧
    ¬ ∃ c ∈ (⟨[⟨"a1", "Alpha", "", "Sofia", 0, "bob"⟩],
        [⟨"c1", "u1", "a1", "rejected"⟩]⟩ : AgencyDB).claims,
      c.user_id = "u1" ∧ c.agency_id = "a1" ∧ c.status = "pending" := by decide

/-- C9: a registration whose email trips the spam heuristic (a valid
address whose local part repeats one character eleven times) reaches the
`spamRejected` branch, and that branch — despite the source's
`# Silent fail for spam` comment — answers HTTP 400 with an error body,
which is not identical to the handler's success response. -/
theorem registration_spam_answer_is_error :
    handle_registration "" "" "" TsField.absent
        "aaaaaaaaaaa@ex.com" "secret123" "parent" "" 1000
      = RegOutcome.spamRejected ∧
    regResponse RegOutcome.spamRejected ≠ regResponse RegOutcome.botSuccess := by
  decide

end Skillio

